import Mathlib

/-!
Shallow embedding of the DEZX backend core (src/backend/server.py) and proofs
about its authorization and lifecycle behaviour.

Modelling conventions:
- Each MongoDB collection is a Lean list of documents, in insertion order.
- `find_one` is `List.find?`; `update_one` updates the first matching document
  (`updateOne` below); `update_many` updates every matching document.
- Fresh uuids (document ids) are passed as explicit string arguments.
- Datetime instants are integers; only their ordering is used by the code.
- An HTTP handler is a function from its arguments and the database state to
  `Except ApiError ...`; raising `HTTPException` is `.error`, and since every
  `raise` in the modelled handlers happens before the first write, an error
  leaves the database unchanged by construction.
- Timestamp bookkeeping fields (`created_at`, `updated_at`) and fields never
  read by the modelled handlers (attachments, votes, budgets, prizes, reset
  tokens) are omitted from the documents.
- bcrypt hashing is out of scope (an opaque credential service per the spec);
  it is modelled by an injective tagging function satisfying the
  `verify_password p (hash_password p) = true` contract.
-/

namespace Dezx

/-- `User` document (models/user.py), restricted to the fields the modelled
handlers read or write. -/
structure UserDoc where
  id : String
  name : String
  email : String
  password_hash : String
  role : String
  profile_image : Option String
  is_blocked : Bool
  is_featured : Bool
deriving Repr, DecidableEq

/-- `Project` document (models/project.py), restricted to the fields the
modelled handlers read or write. -/
structure ProjectDoc where
  id : String
  title : String
  description : String
  client_id : String
  client_name : String
  category : String
  status : String
  approved_proposal_id : Option String
  is_featured : Bool
deriving Repr, DecidableEq

/-- `Competition` document (models/competition.py), restricted to the fields
the modelled handlers read or write. -/
structure CompetitionDoc where
  id : String
  title : String
  description : String
  brief : String
  client_id : String
  client_name : String
  category : String
  start_date : Int
  end_date : Int
  status : String
  winner_ids : List String
  is_featured : Bool
deriving Repr, DecidableEq

/-- `Proposal` document (models/proposal.py), restricted to the fields the
modelled handlers read or write. -/
structure ProposalDoc where
  id : String
  project_id : String
  designer_id : String
  designer_name : String
  cover_letter : String
  status : String
deriving Repr, DecidableEq

/-- `Submission` document. The pydantic model (models/submission.py) has a
`position` field, but server.py reads and writes the raw document keys
`winner_position` and `status` directly in MongoDB, so those document keys are
what is modelled here. -/
structure SubmissionDoc where
  id : String
  competition_id : String
  designer_id : String
  designer_name : String
  title : String
  description : String
  status : String
  is_winner : Bool
  winner_position : Option Nat
deriving Repr, DecidableEq

/-- `Notification` document (models/notification.py). -/
structure NotificationDoc where
  id : String
  type : String
  to_user_id : Option String
  message : String
  link : Option String
  is_read : Bool
deriving Repr, DecidableEq

/-- `AuditLog` document (models/audit_log.py). -/
structure AuditLogDoc where
  admin_id : String
  admin_name : String
  action_type : String
  entity_type : String
  entity_id : Option String
  description : String
deriving Repr, DecidableEq

/-- `PlatformSettings` singleton (models/platform_settings.py), restricted to
the feature toggles the modelled handlers read. -/
structure PlatformSettingsDoc where
  is_freelance_enabled : Bool
  is_competitions_enabled : Bool
  is_registration_enabled : Bool
deriving Repr, DecidableEq

/-- The whole document store: the six mutable collections, the audit log and
the settings singleton. -/
structure DB where
  users : List UserDoc
  projects : List ProjectDoc
  competitions : List CompetitionDoc
  proposals : List ProposalDoc
  submissions : List SubmissionDoc
  notifications : List NotificationDoc
  audit_logs : List AuditLogDoc
  platform_settings : Option PlatformSettingsDoc
deriving Repr, DecidableEq

/-- The payload of a verified session token, as decoded by
`get_current_user` (utils/auth.py). -/
structure Caller where
  user_id : String
  email : String
  role : String
deriving Repr, DecidableEq

/-- An `HTTPException`: status code and detail string. -/
structure ApiError where
  status : Nat
  detail : String
deriving Repr, DecidableEq

/-- Mongo `update_one` with a `$set` patch: rewrite the first document
matching the filter, leave the rest alone. -/
def updateOne {α : Type} (p : α → Bool) (f : α → α) : List α → List α
  | [] => []
  | x :: xs => if p x then f x :: xs else x :: updateOne p f xs

/-- Mongo `update_many` with a `$set` patch: rewrite every document matching
the filter. -/
def updateMany {α : Type} (p : α → Bool) (f : α → α) (l : List α) : List α :=
  l.map fun x => if p x then f x else x

/-- Python truthiness of an `Optional[str]`: `None` and the empty string are
falsy, every other string is truthy. -/
def truthyStr : Option String → Bool
  | none => false
  | some s => !(s == "")

/-- `create_notification` helper (server.py lines 60-72): insert one
notification record; when `to_user_id` is truthy, additionally insert a
broadcast record with `to_user_id = None` and the message prefixed
`[Admin] `. `nid` and `adminNid` are the fresh ids of the two records. -/
def create_notification (nid adminNid : String) (ty message : String)
    (to_user_id : Option String) (link : Option String) (db : DB) : DB :=
  let db1 : DB := { db with notifications := db.notifications ++
    [{ id := nid, type := ty, to_user_id := to_user_id, message := message,
       link := link, is_read := false }] }
  if truthyStr to_user_id then
    { db1 with notifications := db1.notifications ++
      [{ id := adminNid, type := ty, to_user_id := none,
         message := "[Admin] " ++ message, link := link, is_read := false }] }
  else db1

/-- `create_audit_log` helper (server.py lines 74-86). -/
def create_audit_log (admin_id admin_name action_type entity_type : String)
    (entity_id : Option String) (description : String) (db : DB) : DB :=
  { db with audit_logs := db.audit_logs ++
    [{ admin_id := admin_id, admin_name := admin_name,
       action_type := action_type, entity_type := entity_type,
       entity_id := entity_id, description := description }] }

/-- `check_blocked` helper (server.py lines 88-92): a fresh store read of the
user record; 403 when the account is blocked. -/
def check_blocked (user_id : String) (db : DB) : Except ApiError Unit :=
  match db.users.find? (fun u => u.id == user_id) with
  | some u => if u.is_blocked then .error ⟨403, "Your account is blocked"⟩ else .ok ()
  | none => .ok ()

/-- `require_role` dependency (utils/auth.py): 403 unless the token role is in
the allowed list. -/
def require_role (roles : List String) (caller : Caller) : Except ApiError Unit :=
  if roles.contains caller.role then .ok () else .error ⟨403, "Insufficient permissions"⟩

/-- Opaque credential-service hash (utils/auth.py wraps bcrypt): modelled as
an injective tag. -/
def hash_password (password : String) : String := "bcrypt$" ++ password

/-- Credential-service verify contract: a password matches exactly its own
hash. -/
def verify_password (password hashed : String) : Bool :=
  hashed == hash_password password

/-- `POST /auth/register` (server.py lines 104-134). `uid` and `nid` are the
fresh ids of the user and notification records. Returns the new user id. -/
def register (uid nid : String) (name email password role : String) (db : DB) :
    Except ApiError (DB × String) :=
  if (match db.platform_settings with
      | some s => !s.is_registration_enabled
      | none => false) then
    .error ⟨403, "Registration is currently disabled"⟩
  else if (db.users.find? (fun u => u.email == email)).isSome then
    .error ⟨400, "Email already registered"⟩
  else if role != "designer" && role != "client" then
    .error ⟨400, "Invalid role"⟩
  else
    let user : UserDoc :=
      { id := uid, name := name, email := email,
        password_hash := hash_password password, role := role,
        profile_image := none, is_blocked := false, is_featured := false }
    let db := { db with users := db.users ++ [user] }
    let db := create_notification nid nid "new_user"
      ("New " ++ role ++ " registered: " ++ name) none
      (some "/super-admin/users") db
    .ok (db, uid)

/-- `POST /auth/login` (server.py lines 136-157). Token issuance and cookie
handling are out of scope; the handler returns the authenticated user
document. A missing or empty email or password is falsy in Python. -/
def login (email password : Option String) (db : DB) : Except ApiError UserDoc :=
  if !truthyStr email || !truthyStr password then
    .error ⟨400, "Email and password required"⟩
  else
    match db.users.find? (fun u => some u.email == email) with
    | none => .error ⟨401, "Invalid credentials"⟩
    | some u =>
      if !(match password with
           | some p => verify_password p u.password_hash
           | none => false) then
        .error ⟨401, "Invalid credentials"⟩
      else if u.is_blocked then
        .error ⟨403, "Account is blocked"⟩
      else
        .ok u

/-- `POST /projects/` (server.py lines 395-427). `pid` and `nid` are the fresh
ids of the project and notification records. -/
def create_project (pid nid : String) (caller : Caller)
    (title description category : String) (db : DB) :
    Except ApiError (DB × String) :=
  match require_role ["client", "superadmin"] caller with
  | .error e => .error e
  | .ok _ =>
  match check_blocked caller.user_id db with
  | .error e => .error e
  | .ok _ =>
  if (match db.platform_settings with
      | some s => !s.is_freelance_enabled
      | none => false) then
    .error ⟨403, "Freelance is currently disabled"⟩
  else
    let user_doc := db.users.find? (fun u => u.id == caller.user_id)
    let project : ProjectDoc :=
      { id := pid, title := title, description := description,
        client_id := caller.user_id,
        client_name := (match user_doc with | some u => u.name | none => "Unknown"),
        category := category, status := "open",
        approved_proposal_id := none, is_featured := false }
    let db := { db with projects := db.projects ++ [project] }
    let db := create_notification nid nid "project_created"
      ("New project posted: " ++ title) none (some ("/freelance/" ++ pid)) db
    .ok (db, pid)

/-- `POST /competitions/` (server.py lines 555-596). The stored status is
derived once, from the creation-time clock `now` against the submitted
dates. `cid` and `nid` are the fresh ids. -/
def create_competition (cid nid : String) (caller : Caller)
    (title description brief category : String)
    (start_date end_date now : Int) (db : DB) :
    Except ApiError (DB × String) :=
  match require_role ["client", "superadmin"] caller with
  | .error e => .error e
  | .ok _ =>
  match check_blocked caller.user_id db with
  | .error e => .error e
  | .ok _ =>
  if (match db.platform_settings with
      | some s => !s.is_competitions_enabled
      | none => false) then
    .error ⟨403, "Competitions are currently disabled"⟩
  else
    let user_doc := db.users.find? (fun u => u.id == caller.user_id)
    let status :=
      if start_date > now then "upcoming"
      else if end_date > now then "active"
      else "ended"
    let comp : CompetitionDoc :=
      { id := cid, title := title, description := description, brief := brief,
        client_id := caller.user_id,
        client_name := (match user_doc with | some u => u.name | none => "Unknown"),
        category := category, start_date := start_date, end_date := end_date,
        status := status, winner_ids := [], is_featured := false }
    let db := { db with competitions := db.competitions ++ [comp] }
    let db := create_notification nid nid "competition_created"
      ("New competition: " ++ title) none (some ("/competitions/" ++ cid)) db
    .ok (db, cid)

/-- The non-`None` fields of a `CompetitionUpdate` body
(models/competition.py); `update_dict` keeps exactly these. Prize and date
payload conversions do not affect the modelled fields. -/
structure CompetitionUpdate where
  title : Option String
  description : Option String
  brief : Option String
  category : Option String
  start_date : Option Int
  end_date : Option Int
  status : Option String
deriving Repr, DecidableEq

/-- Apply a `$set` of the non-`None` fields of a `CompetitionUpdate` to a
competition document. -/
def applyCompetitionUpdate (u : CompetitionUpdate) (c : CompetitionDoc) :
    CompetitionDoc :=
  { c with
    title := u.title.getD c.title,
    description := u.description.getD c.description,
    brief := u.brief.getD c.brief,
    category := u.category.getD c.category,
    start_date := u.start_date.getD c.start_date,
    end_date := u.end_date.getD c.end_date,
    status := u.status.getD c.status }

/-- `PUT /competitions/{id}` (server.py lines 598-620): ownership-checked
field patch; the stored status changes only if the body carries an explicit
`status` value. Emits a broadcast notification. -/
def update_competition (nid : String) (competition_id : String) (caller : Caller)
    (upd : CompetitionUpdate) (db : DB) : Except ApiError DB :=
  match check_blocked caller.user_id db with
  | .error e => .error e
  | .ok _ =>
  match db.competitions.find? (fun c => c.id == competition_id) with
  | none => .error ⟨404, "Competition not found"⟩
  | some comp =>
    if comp.client_id != caller.user_id && caller.role != "superadmin" then
      .error ⟨403, "Not authorized"⟩
    else
      let db := { db with competitions :=
        (updateOne (fun c => c.id == competition_id) (applyCompetitionUpdate upd)
          db.competitions) }
      let db := create_notification nid nid "competition_updated"
        ("Competition updated: " ++ comp.title) none
        (some ("/competitions/" ++ competition_id)) db
      .ok db

/-- `POST /proposals/` (server.py lines 693-727). `prid`, `nid1`, `nid2` are
the fresh ids of the proposal and the two notification records. -/
def create_proposal (prid nid1 nid2 : String) (caller : Caller)
    (project_id cover_letter : String) (db : DB) :
    Except ApiError (DB × String) :=
  match require_role ["designer", "superadmin"] caller with
  | .error e => .error e
  | .ok _ =>
  match check_blocked caller.user_id db with
  | .error e => .error e
  | .ok _ =>
  match db.projects.find? (fun p => p.id == project_id) with
  | none => .error ⟨404, "Project not found"⟩
  | some project =>
    if project.status != "open" then
      .error ⟨400, "Project is not open"⟩
    else if (db.proposals.find? (fun q =>
        q.project_id == project_id && q.designer_id == caller.user_id)).isSome then
      .error ⟨400, "Already submitted"⟩
    else
      let user_doc := db.users.find? (fun u => u.id == caller.user_id)
      let prop : ProposalDoc :=
        { id := prid, project_id := project_id,
          designer_id := caller.user_id,
          designer_name := (match user_doc with | some u => u.name | none => "Unknown"),
          cover_letter := cover_letter, status := "pending" }
      let db := { db with proposals := db.proposals ++ [prop] }
      let db := create_notification nid1 nid2 "proposal_submitted"
        ("New proposal for " ++ project.title ++ " from " ++ prop.designer_name)
        (some project.client_id) (some ("/client/projects/" ++ project.id)) db
      .ok (db, prid)

/-- `PUT /proposals/{id}/approve` (server.py lines 729-751): find the
proposal and its project, check ownership, then (1) set the target proposal
approved, (2) set every other proposal on the project rejected, (3) set the
project in_progress with `approved_proposal_id`, then notify the designer and
audit-log superadmin actions. There is no check of the current proposal
status. -/
def approve_proposal (nid1 nid2 : String) (proposal_id : String)
    (caller : Caller) (db : DB) : Except ApiError DB :=
  match db.proposals.find? (fun p => p.id == proposal_id) with
  | none => .error ⟨404, "Proposal not found"⟩
  | some proposal =>
    match db.projects.find? (fun p => p.id == proposal.project_id) with
    | none => .error ⟨404, "Project not found"⟩
    | some project =>
      if project.client_id != caller.user_id && caller.role != "superadmin" then
        .error ⟨403, "Not authorized"⟩
      else
        let db := { db with proposals :=
          (updateOne (fun p => p.id == proposal_id)
            (fun p => { p with status := "approved" }) db.proposals) }
        let db := { db with proposals :=
          (updateMany (fun p => p.project_id == project.id && p.id != proposal_id)
            (fun p => { p with status := "rejected" }) db.proposals) }
        let db := { db with projects :=
          (updateOne (fun p => p.id == project.id)
            (fun p => { p with status := "in_progress", approved_proposal_id := some proposal_id })
            db.projects) }
        let db := create_notification nid1 nid2 "proposal_approved"
          ("Your proposal for " ++ project.title ++ " has been approved!")
          (some proposal.designer_id) (some "/designer/proposals") db
        let db :=
          if caller.role == "superadmin" then
            create_audit_log caller.user_id caller.email "approve" "proposal"
              (some proposal_id)
              ("Proposal approved for project " ++ project.title) db
          else db
        .ok db

/-- `POST /submissions/` (server.py lines 822-858). `sid`, `nid1`, `nid2` are
the fresh ids of the submission and the two notification records. -/
def create_submission (sid nid1 nid2 : String) (caller : Caller)
    (competition_id title description : String) (db : DB) :
    Except ApiError (DB × String) :=
  match require_role ["designer", "superadmin"] caller with
  | .error e => .error e
  | .ok _ =>
  match check_blocked caller.user_id db with
  | .error e => .error e
  | .ok _ =>
  match db.competitions.find? (fun c => c.id == competition_id) with
  | none => .error ⟨404, "Competition not found"⟩
  | some comp =>
    if comp.status != "active" && comp.status != "upcoming" then
      .error ⟨400, "Competition not accepting submissions"⟩
    else if (db.submissions.find? (fun s =>
        s.competition_id == competition_id && s.designer_id == caller.user_id)).isSome then
      .error ⟨400, "Already submitted"⟩
    else
      let user_doc := db.users.find? (fun u => u.id == caller.user_id)
      let sub : SubmissionDoc :=
        { id := sid, competition_id := competition_id,
          designer_id := caller.user_id,
          designer_name := (match user_doc with | some u => u.name | none => "Unknown"),
          title := title, description := description, status := "pending",
          is_winner := false, winner_position := none }
      let db := { db with submissions := db.submissions ++ [sub] }
      let db := create_notification nid1 nid2 "submission_submitted"
        ("New submission for " ++ comp.title ++ " from " ++ sub.designer_name)
        (some comp.client_id) (some ("/client/competitions/" ++ comp.id)) db
      .ok (db, sid)

/-- `PUT /submissions/{id}/winner` (server.py lines 911-936). FastAPI
validates `position` with `Query(..., ge=1, le=3)` before the handler runs
(422 otherwise). The handler clears every submission of the competition
currently holding `winner_position == position`, sets the target as winner at
that position with status approved, and adds the designer id to the
competition `winner_ids` unless already present. A missing parent competition
would raise an unhandled `TypeError` in Python, surfaced as a 500. -/
def set_winner (nid1 nid2 : String) (submission_id : String) (position : Nat)
    (caller : Caller) (db : DB) : Except ApiError DB :=
  if position < 1 || 3 < position then
    .error ⟨422, "Input should be less than or equal to 3"⟩
  else
    match db.submissions.find? (fun s => s.id == submission_id) with
    | none => .error ⟨404, "Submission not found"⟩
    | some submission =>
      match db.competitions.find? (fun c => c.id == submission.competition_id) with
      | none => .error ⟨500, "Internal Server Error"⟩
      | some comp =>
        if comp.client_id != caller.user_id && caller.role != "superadmin" then
          .error ⟨403, "Not authorized"⟩
        else
          let db := { db with submissions :=
            (updateMany (fun s =>
                s.competition_id == comp.id && s.winner_position == some position)
              (fun s => { s with is_winner := false, winner_position := none })
              db.submissions) }
          let db := { db with submissions :=
            (updateOne (fun s => s.id == submission_id)
              (fun s => { s with is_winner := true, winner_position := some position, status := "approved" })
              db.submissions) }
          let winner_ids :=
            if comp.winner_ids.contains submission.designer_id then comp.winner_ids
            else comp.winner_ids ++ [submission.designer_id]
          let db := { db with competitions :=
            (updateOne (fun c => c.id == comp.id)
              (fun c => { c with winner_ids := winner_ids }) db.competitions) }
          let db := create_notification nid1 nid2 "winner_published"
            ("Congratulations! You won #" ++ toString position ++ " in "
              ++ comp.title ++ "!")
            (some submission.designer_id) (some ("/competitions/" ++ comp.id)) db
          let db :=
            if caller.role == "superadmin" then
              create_audit_log caller.user_id caller.email "winner" "submission"
                (some submission_id)
                ("Set winner #" ++ toString position ++ " for " ++ comp.title) db
            else db
          .ok db

/-- `PUT /submissions/{id}/remove-winner` (server.py lines 938-947):
superadmin only; clears `is_winner` and `winner_position` on the target
submission and writes an audit entry. It does not touch the competition
document, so `winner_ids` keeps the designer id. -/
def remove_winner (submission_id : String) (caller : Caller) (db : DB) :
    Except ApiError DB :=
  match require_role ["superadmin"] caller with
  | .error e => .error e
  | .ok _ =>
  match db.submissions.find? (fun s => s.id == submission_id) with
  | none => .error ⟨404, "Submission not found"⟩
  | some _ =>
    let db := { db with submissions :=
      (updateOne (fun s => s.id == submission_id)
        (fun s => { s with is_winner := false, winner_position := none })
        db.submissions) }
    let db := create_audit_log caller.user_id caller.email "remove_winner"
      "submission" (some submission_id) "Winner removed" db
    .ok db

/-- `PUT /notifications/{id}/read` (server.py lines 983-986): the only
dependency is `get_current_user`, so any authenticated caller reaches the
body, which updates by notification id alone and returns success whether or
not a document matched. -/
def mark_notification_read (notification_id : String) (_caller : Caller)
    (db : DB) : Except ApiError (DB × String) :=
  let db := { db with notifications :=
    (updateOne (fun n => n.id == notification_id)
      (fun n => { n with is_read := true }) db.notifications) }
  .ok (db, "Marked as read")

/-- Mongo `delete_one`: remove the first document matching the filter. -/
def deleteOne {α : Type} (p : α → Bool) : List α → List α
  | [] => []
  | x :: xs => if p x then xs else x :: deleteOne p xs

/-- The non-`None` fields of a `ProjectUpdate` body (models/project.py),
restricted to the fields the document model carries; budget, deadline and
skills patches touch only omitted fields. -/
structure ProjectUpdate where
  title : Option String
  description : Option String
  category : Option String
  status : Option String
deriving Repr, DecidableEq

/-- Apply a `$set` of the non-`None` fields of a `ProjectUpdate` to a project
document. -/
def applyProjectUpdate (u : ProjectUpdate) (p : ProjectDoc) : ProjectDoc :=
  { p with
    title := u.title.getD p.title,
    description := u.description.getD p.description,
    category := u.category.getD p.category,
    status := u.status.getD p.status }

/-- `PUT /projects/{id}` (server.py lines 429-448): re-checks the blocked
flag, then ownership, then patches the non-`None` fields and emits a
broadcast notification. -/
def update_project (nid : String) (project_id : String) (caller : Caller)
    (upd : ProjectUpdate) (db : DB) : Except ApiError DB :=
  match check_blocked caller.user_id db with
  | .error e => .error e
  | .ok _ =>
  match db.projects.find? (fun p => p.id == project_id) with
  | none => .error ⟨404, "Project not found"⟩
  | some project =>
    if project.client_id != caller.user_id && caller.role != "superadmin" then
      .error ⟨403, "Not authorized"⟩
    else
      let db := { db with projects :=
        (updateOne (fun p => p.id == project_id) (applyProjectUpdate upd)
          db.projects) }
      let db := create_notification nid nid "project_updated"
        ("Project updated: " ++ project.title) none
        (some ("/freelance/" ++ project_id)) db
      .ok db

/-- `PUT /proposals/{id}/reject` (server.py lines 753-772): find the proposal
and its project, check ownership, set the proposal rejected (no project-side
effect), notify the designer, audit-log superadmin actions. No blocked
check. -/
def reject_proposal (nid1 nid2 : String) (proposal_id : String)
    (caller : Caller) (db : DB) : Except ApiError DB :=
  match db.proposals.find? (fun p => p.id == proposal_id) with
  | none => .error ⟨404, "Proposal not found"⟩
  | some proposal =>
    match db.projects.find? (fun p => p.id == proposal.project_id) with
    | none => .error ⟨404, "Project not found"⟩
    | some project =>
      if project.client_id != caller.user_id && caller.role != "superadmin" then
        .error ⟨403, "Not authorized"⟩
      else
        let db := { db with proposals :=
          (updateOne (fun p => p.id == proposal_id)
            (fun p => { p with status := "rejected" }) db.proposals) }
        let db := create_notification nid1 nid2 "proposal_rejected"
          ("Your proposal for " ++ project.title ++ " was not selected")
          (some proposal.designer_id) (some "/designer/proposals") db
        let db :=
          if caller.role == "superadmin" then
            create_audit_log caller.user_id caller.email "reject" "proposal"
              (some proposal_id)
              ("Proposal rejected for project " ++ project.title) db
          else db
        .ok db

/-- `DELETE /proposals/{id}` (server.py lines 774-783): superadmin only;
deletes the proposal and writes an audit entry. No blocked check. -/
def delete_proposal (proposal_id : String) (caller : Caller) (db : DB) :
    Except ApiError DB :=
  match require_role ["superadmin"] caller with
  | .error e => .error e
  | .ok _ =>
  match db.proposals.find? (fun p => p.id == proposal_id) with
  | none => .error ⟨404, "Proposal not found"⟩
  | some _ =>
    let db := { db with proposals :=
      (deleteOne (fun p => p.id == proposal_id) db.proposals) }
    let db := create_audit_log caller.user_id caller.email "delete" "proposal"
      (some proposal_id) "Proposal deleted (spam/abuse)" db
    .ok db

/-! ## Generic lemmas about the store update primitives -/

theorem updateMany_map_key {α κ : Type} (key : α → κ) (p : α → Bool) (f : α → α)
    (hf : ∀ x, key (f x) = key x) (l : List α) :
    (updateMany p f l).map key = l.map key := by
  induction l with
  | nil => rfl
  | cons z t ih =>
    simp only [updateMany, List.map_cons, List.map_map] at *
    by_cases hz : p z = true
    · simp [hz, hf z, ih]
    · simp only [Bool.not_eq_true] at hz
      simp [hz, ih]

theorem updateOne_map_key {α κ : Type} (key : α → κ) (p : α → Bool) (f : α → α)
    (hf : ∀ x, key (f x) = key x) (l : List α) :
    (updateOne p f l).map key = l.map key := by
  induction l with
  | nil => rfl
  | cons z t ih =>
    by_cases hz : p z = true
    · simp [updateOne, hz, hf z]
    · simp only [Bool.not_eq_true] at hz
      simp [updateOne, hz, ih]

theorem mem_updateOne {α : Type} {p : α → Bool} {f : α → α} {l : List α} {x : α}
    (h : x ∈ updateOne p f l) : x ∈ l ∨ ∃ y, y ∈ l ∧ p y = true ∧ x = f y := by
  induction l with
  | nil => simp [updateOne] at h
  | cons z t ih =>
    by_cases hz : p z = true
    · simp only [updateOne, hz, if_true, List.mem_cons] at h
      rcases h with h | h
      · exact Or.inr ⟨z, List.mem_cons_self .., hz, h⟩
      · exact Or.inl (List.mem_cons_of_mem _ h)
    · simp only [Bool.not_eq_true] at hz
      simp only [updateOne, hz, Bool.false_eq_true, if_false, List.mem_cons] at h
      rcases h with h | h
      · exact Or.inl (h ▸ List.mem_cons_self ..)
      · rcases ih h with h | ⟨y, hy, hpy, hxy⟩
        · exact Or.inl (List.mem_cons_of_mem _ h)
        · exact Or.inr ⟨y, List.mem_cons_of_mem _ hy, hpy, hxy⟩

theorem updateOne_eq_of_forall_not {α : Type} {p : α → Bool} {f : α → α}
    {l : List α} (h : ∀ x ∈ l, p x = false) : updateOne p f l = l := by
  induction l with
  | nil => rfl
  | cons z t ih =>
    have hz := h z (List.mem_cons_self ..)
    simp only [updateOne, hz, Bool.false_eq_true, if_false]
    rw [ih fun x hx => h x (List.mem_cons_of_mem _ hx)]

theorem updateOne_key_spec {α κ : Type} [DecidableEq κ] (key : α → κ) (k : κ)
    (f : α → α) (l : List α) (hnd : (l.map key).Nodup) :
    ∀ x ∈ updateOne (fun a => key a == k) f l,
      (key x = k → ∃ y, y ∈ l ∧ key y = k ∧ x = f y) := by
  induction l with
  | nil => intro x hx; simp [updateOne] at hx
  | cons z t ih =>
    simp only [List.map_cons, List.nodup_cons] at hnd
    intro x hx hk
    by_cases hz : key z = k
    · simp only [updateOne, hz, beq_self_eq_true, if_true, List.mem_cons] at hx
      rcases hx with hx | hx
      · exact ⟨z, List.mem_cons_self .., hz, hx⟩
      · exact absurd (hz ▸ hk ▸ List.mem_map_of_mem key hx) hnd.1
    · have hz' : (key z == k) = false := by simpa using hz
      simp only [updateOne, hz', Bool.false_eq_true, if_false, List.mem_cons] at hx
      rcases hx with hx | hx
      · exact absurd (hx ▸ hk) hz
      · obtain ⟨y, hy, hky, hxy⟩ := ih hnd.2 x hx hk
        exact ⟨y, List.mem_cons_of_mem _ hy, hky, hxy⟩

theorem mem_of_mem_updateOne_key {α κ : Type} [DecidableEq κ] (key : α → κ)
    (k : κ) (f : α → α) (l : List α) (x : α)
    (hx : x ∈ updateOne (fun a => key a == k) f l)
    (hfk : ∀ y, key (f y) = key y) (hk : key x ≠ k) : x ∈ l := by
  rcases mem_updateOne hx with h | ⟨y, hy, hpy, hxy⟩
  · exact h
  · exact absurd (by subst hxy; rw [hfk y]; exact of_decide_eq_true hpy) hk

theorem countP_updateOne_le {α : Type} (p q : α → Bool) (f : α → α) (l : List α) :
    (updateOne q f l).countP p ≤ l.countP p + 1 := by
  induction l with
  | nil => simp [updateOne]
  | cons z t ih =>
    by_cases hz : q z = true
    · simp only [updateOne, hz, if_true, List.countP_cons]
      by_cases hp : p (f z) = true <;> by_cases hp2 : p z = true <;>
        simp [hp, hp2] <;> omega
    · simp only [Bool.not_eq_true] at hz
      simp only [updateOne, hz, Bool.false_eq_true, if_false, List.countP_cons]
      by_cases hp2 : p z = true <;> simp [hp2] <;> omega

theorem countP_updateOne_le_of_mem {α : Type} (p q : α → Bool) (f : α → α)
    (l : List α) (h : ∀ x ∈ l, q x = true → p (f x) = false) :
    (updateOne q f l).countP p ≤ l.countP p := by
  induction l with
  | nil => simp [updateOne]
  | cons z t ih =>
    by_cases hz : q z = true
    · simp only [updateOne, hz, if_true, List.countP_cons,
        h z (List.mem_cons_self ..) hz, Bool.false_eq_true, if_false]
      by_cases hp2 : p z = true <;> simp [hp2]
    · simp only [Bool.not_eq_true] at hz
      simp only [updateOne, hz, Bool.false_eq_true, if_false, List.countP_cons]
      have := ih fun x hx => h x (List.mem_cons_of_mem _ hx)
      omega

theorem countP_updateMany_eq_zero {α : Type} (p q : α → Bool) (f : α → α)
    (l : List α) (h1 : ∀ x, p (f x) = false) (h2 : ∀ x, p x = true → q x = true) :
    (updateMany q f l).countP p = 0 := by
  rw [List.countP_eq_zero]
  intro a ha
  simp only [updateMany, List.mem_map] at ha
  obtain ⟨y, _, hy⟩ := ha
  subst hy
  by_cases hq : q y = true
  · simp [hq, h1 y]
  · simp only [Bool.not_eq_true] at hq
    simp only [hq, Bool.false_eq_true, if_false]
    intro hp
    exact absurd (h2 y hp) (by simp [hq])

theorem countP_updateMany_le_of_false {α : Type} (p q : α → Bool) (f : α → α)
    (l : List α) (h : ∀ x, p (f x) = false) :
    (updateMany q f l).countP p ≤ l.countP p := by
  induction l with
  | nil => simp [updateMany]
  | cons z t ih =>
    have hstep : updateMany q f (z :: t)
        = (if q z = true then f z else z) :: updateMany q f t := by
      simp [updateMany]
    rw [hstep, List.countP_cons, List.countP_cons]
    by_cases hq : q z = true
    · simp only [hq, if_true, h z, Bool.false_eq_true, if_false]
      by_cases hpz : p z = true
      · simp only [hpz, if_true]
        omega
      · simp only [hpz, Bool.false_eq_true, if_false]
        omega
    · simp only [Bool.not_eq_true] at hq
      simp only [hq, Bool.false_eq_true, if_false]
      omega

theorem eq_of_key_eq_of_nodup {α κ : Type} (key : α → κ) {l : List α}
    (h : (l.map key).Nodup) {y z : α} (hy : y ∈ l) (hz : z ∈ l)
    (hk : key y = key z) : y = z := by
  induction l with
  | nil => simp at hy
  | cons a t ih =>
    simp only [List.map_cons, List.nodup_cons] at h
    rcases List.mem_cons.1 hy with hy1 | hy1 <;>
      rcases List.mem_cons.1 hz with hz1 | hz1
    · rw [hy1, hz1]
    · exact absurd (hy1 ▸ hk ▸ List.mem_map_of_mem key hz1) h.1
    · exact absurd (hz1 ▸ hk.symm ▸ List.mem_map_of_mem key hy1) h.1
    · exact ih h.2 hy1 hz1

/-! ## Frame facts for the fan-out helpers -/

@[simp] theorem create_notification_users (nid adminNid ty msg : String)
    (tuid link : Option String) (db : DB) :
    (create_notification nid adminNid ty msg tuid link db).users = db.users := by
  unfold create_notification; split <;> rfl

@[simp] theorem create_notification_projects (nid adminNid ty msg : String)
    (tuid link : Option String) (db : DB) :
    (create_notification nid adminNid ty msg tuid link db).projects = db.projects := by
  unfold create_notification; split <;> rfl

@[simp] theorem create_notification_competitions (nid adminNid ty msg : String)
    (tuid link : Option String) (db : DB) :
    (create_notification nid adminNid ty msg tuid link db).competitions = db.competitions := by
  unfold create_notification; split <;> rfl

@[simp] theorem create_notification_proposals (nid adminNid ty msg : String)
    (tuid link : Option String) (db : DB) :
    (create_notification nid adminNid ty msg tuid link db).proposals = db.proposals := by
  unfold create_notification; split <;> rfl

@[simp] theorem create_notification_submissions (nid adminNid ty msg : String)
    (tuid link : Option String) (db : DB) :
    (create_notification nid adminNid ty msg tuid link db).submissions = db.submissions := by
  unfold create_notification; split <;> rfl

@[simp] theorem create_notification_audit_logs (nid adminNid ty msg : String)
    (tuid link : Option String) (db : DB) :
    (create_notification nid adminNid ty msg tuid link db).audit_logs = db.audit_logs := by
  unfold create_notification; split <;> rfl

@[simp] theorem create_notification_platform_settings (nid adminNid ty msg : String)
    (tuid link : Option String) (db : DB) :
    (create_notification nid adminNid ty msg tuid link db).platform_settings
      = db.platform_settings := by
  unfold create_notification; split <;> rfl

@[simp] theorem create_audit_log_users (a b c d : String) (e : Option String)
    (f : String) (db : DB) :
    (create_audit_log a b c d e f db).users = db.users := rfl

@[simp] theorem create_audit_log_projects (a b c d : String) (e : Option String)
    (f : String) (db : DB) :
    (create_audit_log a b c d e f db).projects = db.projects := rfl

@[simp] theorem create_audit_log_competitions (a b c d : String) (e : Option String)
    (f : String) (db : DB) :
    (create_audit_log a b c d e f db).competitions = db.competitions := rfl

@[simp] theorem create_audit_log_proposals (a b c d : String) (e : Option String)
    (f : String) (db : DB) :
    (create_audit_log a b c d e f db).proposals = db.proposals := rfl

@[simp] theorem create_audit_log_submissions (a b c d : String) (e : Option String)
    (f : String) (db : DB) :
    (create_audit_log a b c d e f db).submissions = db.submissions := rfl

@[simp] theorem create_audit_log_notifications (a b c d : String) (e : Option String)
    (f : String) (db : DB) :
    (create_audit_log a b c d e f db).notifications = db.notifications := rfl

/-- The empty store, used as a base state for concrete runs. -/
def emptyDB : DB := ⟨[], [], [], [], [], [], [], none⟩

/-! ## C8 — notification fan-out -/

/-- C8 counterexample: calling the emitter with `toUserId` set to the empty
string creates exactly one record, not the two the claim predicts for a set
`toUserId` (Python treats the empty string as falsy). -/
theorem create_notification_empty_target_single :
    ¬ ((create_notification "n1" "n2" "admin_direct" "hello" (some "") none
          emptyDB).notifications.length = 2) ∧
    (create_notification "n1" "n2" "admin_direct" "hello" (some "") none
        emptyDB).notifications.length = 1 := by
  constructor
  · decide
  · rfl

/-- C8 (amended): `create_notification` appends exactly one record when
`to_user_id` is `None` or the empty string (both falsy in Python), and exactly
two — the targeted record plus a broadcast with `to_user_id = None` and the
message prefixed `[Admin] ` — when `to_user_id` is a non-empty string. -/
theorem create_notification_fanout (nid adminNid ty msg : String)
    (tuid link : Option String) (db : DB) :
    (truthyStr tuid = true ↔ ∃ s, tuid = some s ∧ s ≠ "") ∧
    (truthyStr tuid = false →
      create_notification nid adminNid ty msg tuid link db =
        { db with notifications := db.notifications ++
          [⟨nid, ty, tuid, msg, link, false⟩] }) ∧
    (truthyStr tuid = true →
      create_notification nid adminNid ty msg tuid link db =
        { db with notifications := db.notifications ++
          [⟨nid, ty, tuid, msg, link, false⟩,
           ⟨adminNid, ty, none, "[Admin] " ++ msg, link, false⟩] }) := by
  refine ⟨?_, ?_, ?_⟩
  · cases tuid with
    | none => simp [truthyStr]
    | some s => simp [truthyStr]
  · intro h
    simp [create_notification, h]
  · intro h
    simp [create_notification, h]

/-- Witness for C8 (amended) at a concrete non-empty target. -/
theorem create_notification_fanout_witness :
    truthyStr (some "u1") = true ∧
    create_notification "na" "nb" "t" "m" (some "u1") none emptyDB =
      { emptyDB with notifications := emptyDB.notifications ++
        [⟨"na", "t", some "u1", "m", none, false⟩,
         ⟨"nb", "t", none, "[Admin] " ++ "m", none, false⟩] } :=
  ⟨by decide,
    (create_notification_fanout "na" "nb" "t" "m" (some "u1") none emptyDB).2.2
      (by decide)⟩

/-! ## C10 — mark-notification-read ignores the recipient -/

/-- What `mark_notification_read` does for an arbitrary authenticated caller:
it always succeeds, flips `is_read` on the (unique) notification with the
given id changing nothing else about it, leaves every other notification and
collection untouched, and still succeeds (as a no-op) when no notification
has that id. No conclusion depends on the caller. -/
def MarkReadSpec (notification_id : String) (caller : Caller) (db : DB) : Prop :=
  ∃ db2, mark_notification_read notification_id caller db = .ok (db2, "Marked as read") ∧
    (∀ n ∈ db2.notifications, n.id = notification_id →
      n.is_read = true ∧ ∃ m, m ∈ db.notifications ∧ m.id = notification_id ∧
        n = { m with is_read := true }) ∧
    (∀ n ∈ db2.notifications, n.id ≠ notification_id → n ∈ db.notifications) ∧
    ((∀ m ∈ db.notifications, m.id ≠ notification_id) → db2 = db) ∧
    db2.users = db.users ∧ db2.projects = db.projects ∧
    db2.competitions = db.competitions ∧ db2.proposals = db.proposals ∧
    db2.submissions = db.submissions ∧ db2.audit_logs = db.audit_logs

/-- C10: the read-marking endpoint checks only that the caller is
authenticated; for every caller and every notification id it succeeds,
setting `is_read` on the matching record even when it is addressed to a
different user, and succeeding as a no-op when the id matches nothing. -/
theorem mark_notification_read_any_caller (notification_id : String)
    (caller : Caller) (db : DB)
    (hnd : (db.notifications.map (fun n => n.id)).Nodup) :
    MarkReadSpec notification_id caller db := by
  refine ⟨_, rfl, ?_, ?_, ?_, rfl, rfl, rfl, rfl, rfl, rfl⟩
  · intro n hn hid
    obtain ⟨m, hm, hmid, hn_eq⟩ :=
      updateOne_key_spec (fun n => n.id) notification_id
        (fun n => { n with is_read := true }) db.notifications hnd n hn hid
    exact ⟨by rw [hn_eq], m, hm, hmid, hn_eq⟩
  · intro n hn hid
    exact mem_of_mem_updateOne_key (fun n => n.id) notification_id
      (fun n => { n with is_read := true }) db.notifications n hn (fun y => rfl) hid
  · intro h
    have heq : updateOne (fun n => n.id == notification_id)
        (fun n => { n with is_read := true }) db.notifications = db.notifications :=
      updateOne_eq_of_forall_not fun x hx => by simpa using h x hx
    show ({ db with notifications := _ } : DB) = db
    rw [heq]

/-- Concrete base state for the C10 witness: one unread notification addressed
to `alice`. -/
def c10db : DB :=
  { emptyDB with notifications := [⟨"m1", "t", some "alice", "msg", none, false⟩] }

/-- Witness for C10: a different user, `bob`, marks the notification addressed
to `alice` as read. -/
theorem mark_notification_read_any_caller_witness :
    (c10db.notifications.map (fun n => n.id)).Nodup ∧
    MarkReadSpec "m1" ⟨"bob", "bob@x", "designer"⟩ c10db :=
  ⟨by decide,
    mark_notification_read_any_caller "m1" ⟨"bob", "bob@x", "designer"⟩ c10db
      (by decide)⟩

/-! ## C9 — public registration cannot create a superadmin -/

/-- C9: `register` rejects every role other than designer or client (always
with some error, and specifically with 400 Invalid role once the earlier
registration-enabled and email-uniqueness guards pass), and on success the
only user added has the whitelisted role; in particular no superadmin account
can ever be created through the endpoint. -/
theorem register_role_whitelist (uid nid name email password role : String)
    (db : DB) :
    (role ≠ "designer" → role ≠ "client" →
      ∃ err : ApiError, register uid nid name email password role db = .error err) ∧
    ((∀ s, db.platform_settings = some s → s.is_registration_enabled = true) →
      db.users.find? (fun u => u.email == email) = none →
      role ≠ "designer" → role ≠ "client" →
      register uid nid name email password role db = .error ⟨400, "Invalid role"⟩) ∧
    (∀ db2 newId, register uid nid name email password role db = .ok (db2, newId) →
      ∀ u ∈ db2.users, u ∈ db.users ∨
        (u.role = role ∧ (role = "designer" ∨ role = "client"))) := by
  refine ⟨?_, ?_, ?_⟩
  · intro h1 h2
    unfold register
    split
    · exact ⟨_, rfl⟩
    · split
      · exact ⟨_, rfl⟩
      · split
        · exact ⟨_, rfl⟩
        · rename_i hc3
          exact absurd (by simp [h1, h2]) hc3
  · intro hs hfind h1 h2
    have hc1 : (match db.platform_settings with
        | some s => !s.is_registration_enabled
        | none => false) = false := by
      cases hps : db.platform_settings with
      | none => rfl
      | some s => simp [hs s hps]
    simp [register, hc1, hfind, h1, h2]
  · intro db2 newId hok u hu
    unfold register at hok
    split at hok
    · exact absurd hok (by simp)
    · split at hok
      · exact absurd hok (by simp)
      · split at hok
        · exact absurd hok (by simp)
        · rename_i hc3
          simp only [Except.ok.injEq, Prod.mk.injEq] at hok
          obtain ⟨hdb, -⟩ := hok
          rw [← hdb, create_notification_users] at hu
          simp only [List.mem_append, List.mem_singleton] at hu
          rcases hu with hu | hu
          · exact Or.inl hu
          · refine Or.inr ⟨by rw [hu], ?_⟩
            by_contra hcon
            push_neg at hcon
            exact hc3 (by simp [hcon.1, hcon.2])

/-- Witness for C9 at a concrete superadmin registration attempt. -/
theorem register_role_whitelist_witness :
    (∀ s, emptyDB.platform_settings = some s → s.is_registration_enabled = true) ∧
    emptyDB.users.find? (fun u => u.email == "a@b.c") = none ∧
    ("superadmin" : String) ≠ "designer" ∧ ("superadmin" : String) ≠ "client" ∧
    register "u1" "n1" "Eve" "a@b.c" "pw" "superadmin" emptyDB =
      .error ⟨400, "Invalid role"⟩ :=
  ⟨fun s h => by simp [emptyDB] at h, rfl, by decide, by decide,
    (register_role_whitelist "u1" "n1" "Eve" "a@b.c" "pw" "superadmin" emptyDB).2.1
      (fun s h => by simp [emptyDB] at h) rfl (by decide) (by decide)⟩

/-! ## C7 — competition status derived once, never recomputed -/

/-- C7: `create_competition` stores exactly the status derived from the
creation-time clock (`upcoming` when `start_date > now`, else `active` when
`end_date > now`, else `ended`), and the operations that later touch a
competition document do not recompute it: a field update whose body carries no
explicit status, and winner assignment, both preserve every stored
`(id, status)` pair — neither even takes the current time as an input. -/
theorem competition_status_fixed_at_creation
    (cid nid : String) (caller : Caller)
    (title description brief category : String)
    (start_date end_date now : Int) (db : DB) :
    (∀ db2 rid,
      create_competition cid nid caller title description brief category
        start_date end_date now db = .ok (db2, rid) →
      ∃ c : CompetitionDoc, db2.competitions = db.competitions ++ [c] ∧
        c.id = cid ∧ c.start_date = start_date ∧ c.end_date = end_date ∧
        c.status = (if start_date > now then "upcoming"
          else if end_date > now then "active" else "ended")) ∧
    (∀ nid2 competition_id upd db2,
      upd.status = none →
      update_competition nid2 competition_id caller upd db = .ok db2 →
      db2.competitions.map (fun c => (c.id, c.status))
        = db.competitions.map (fun c => (c.id, c.status))) ∧
    (∀ nid1 nid2 sid position db2,
      set_winner nid1 nid2 sid position caller db = .ok db2 →
      db2.competitions.map (fun c => (c.id, c.status))
        = db.competitions.map (fun c => (c.id, c.status))) := by
  refine ⟨?_, ?_, ?_⟩
  · intro db2 rid hok
    unfold create_competition at hok
    split at hok
    · exact absurd hok (by simp)
    · split at hok
      · exact absurd hok (by simp)
      · split at hok
        · exact absurd hok (by simp)
        · simp only [Except.ok.injEq, Prod.mk.injEq] at hok
          obtain ⟨hdb, -⟩ := hok
          refine ⟨⟨cid, title, description, brief, caller.user_id,
            (match db.users.find? (fun u => u.id == caller.user_id) with
             | some u => u.name
             | none => "Unknown"),
            category, start_date, end_date,
            (if start_date > now then "upcoming"
             else if end_date > now then "active" else "ended"),
            [], false⟩, ?_, rfl, rfl, rfl, rfl⟩
          rw [← hdb]
          simp only [create_notification_competitions]
  · intro nid2 competition_id upd db2 hst hok
    unfold update_competition at hok
    split at hok
    · exact absurd hok (by simp)
    · split at hok
      · exact absurd hok (by simp)
      · split at hok
        · exact absurd hok (by simp)
        · simp only [Except.ok.injEq] at hok
          rw [← hok]
          simp only [create_notification_competitions]
          apply updateOne_map_key
          intro c
          simp [applyCompetitionUpdate, hst]
  · intro nid1 nid2 sid position db2 hok
    unfold set_winner at hok
    split at hok
    · exact absurd hok (by simp)
    · split at hok
      · exact absurd hok (by simp)
      · split at hok
        · exact absurd hok (by simp)
        · split at hok
          · exact absurd hok (by simp)
          · simp only [Except.ok.injEq] at hok
            rw [← hok]
            split
            · simp only [create_audit_log_competitions, create_notification_competitions]
              apply updateOne_map_key
              intro c
              rfl
            · simp only [create_notification_competitions]
              apply updateOne_map_key
              intro c
              rfl

/-- The client who owns the concrete entities in the witness states. -/
def clientCaller : Caller := ⟨"u1", "u1@x", "client"⟩

/-- Concrete base state for the C7 witness: one client user. -/
def c7db : DB :=
  { emptyDB with users := [⟨"u1", "Ann", "u1@x", "h", "client", none, false, false⟩] }

/-- Result state of the concrete C7 creation run. -/
def c7res : DB :=
  match create_competition "c1" "n1" clientCaller "T" "D" "B" "cat" 10 20 15 c7db with
  | .ok (d, _) => d
  | .error _ => c7db

/-- Witness for C7: a competition created at `now = 15` with dates `[10, 20)`
is stored as `active`. -/
theorem competition_status_fixed_at_creation_witness :
    create_competition "c1" "n1" clientCaller "T" "D" "B" "cat" 10 20 15 c7db
      = .ok (c7res, "c1") ∧
    ∃ c : CompetitionDoc, c7res.competitions = c7db.competitions ++ [c] ∧
      c.id = "c1" ∧ c.start_date = 10 ∧ c.end_date = 20 ∧
      c.status = (if (10 : Int) > 15 then "upcoming"
        else if (20 : Int) > 15 then "active" else "ended") :=
  ⟨rfl,
    (competition_status_fixed_at_creation "c1" "n1" clientCaller "T" "D" "B" "cat"
      10 20 15 c7db).1 c7res "c1" rfl⟩

/-! ## C6 — remove-winner clears the flags and nothing else -/

/-- What `remove_winner` does on success: the target submission has
`is_winner` cleared and `winner_position` removed with every other field
intact, all other submissions and every other collection are untouched — in
particular the competitions (hence `winner_ids`) are exactly as before — and
one audit entry is appended. -/
def RemoveWinnerSpec (submission_id : String) (caller : Caller) (db db2 : DB) : Prop :=
  (∀ s ∈ db2.submissions, s.id = submission_id →
    s.is_winner = false ∧ s.winner_position = none ∧
    ∃ t, t ∈ db.submissions ∧ t.id = submission_id ∧
      s = { t with is_winner := false, winner_position := none }) ∧
  (∀ s ∈ db2.submissions, s.id ≠ submission_id → s ∈ db.submissions) ∧
  db2.submissions.map (fun s => s.id) = db.submissions.map (fun s => s.id) ∧
  db2.competitions = db.competitions ∧
  db2.users = db.users ∧ db2.projects = db.projects ∧
  db2.proposals = db.proposals ∧ db2.notifications = db.notifications ∧
  db2.audit_logs = db.audit_logs ++
    [⟨caller.user_id, caller.email, "remove_winner", "submission",
      some submission_id, "Winner removed"⟩]

/-- C6: `remove_winner` clears `is_winner`/`winner_position` on the target
and changes nothing else in the entity collections; the parent competition
document — including `winner_ids` — is left unchanged. -/
theorem remove_winner_frame (submission_id : String) (caller : Caller)
    (db db2 : DB) (hnd : (db.submissions.map (fun s => s.id)).Nodup)
    (hok : remove_winner submission_id caller db = .ok db2) :
    RemoveWinnerSpec submission_id caller db db2 := by
  unfold remove_winner at hok
  split at hok
  · exact absurd hok (by simp)
  · split at hok
    · exact absurd hok (by simp)
    · simp only [Except.ok.injEq] at hok
      subst hok
      refine ⟨?_, ?_, ?_, rfl, rfl, rfl, rfl, rfl, rfl⟩
      · intro s hs hid
        simp only [create_audit_log_submissions] at hs
        obtain ⟨t, ht, htid, hst⟩ := updateOne_key_spec (fun s => s.id)
          submission_id
          (fun s => { s with is_winner := false, winner_position := none })
          db.submissions hnd s hs hid
        exact ⟨by rw [hst], by rw [hst], t, ht, htid, hst⟩
      · intro s hs hid
        simp only [create_audit_log_submissions] at hs
        exact mem_of_mem_updateOne_key (fun s => s.id) submission_id
          (fun s => { s with is_winner := false, winner_position := none })
          db.submissions s hs (fun y => rfl) hid
      · simp only [create_audit_log_submissions]
        apply updateOne_map_key
        intro s
        rfl

/-- The superadmin of the concrete witness states. -/
def adminCaller : Caller := ⟨"adm", "adm@x", "superadmin"⟩

/-- Concrete base state for the C6 witness: one competition crediting
designer `d1` in `winner_ids`, one winning submission by `d1`. -/
def c6db : DB :=
  { emptyDB with
    competitions := [⟨"c1", "T", "D", "B", "u1", "Ann", "cat", 0, 10, "ended",
      ["d1"], false⟩],
    submissions := [⟨"s1", "c1", "d1", "Dee", "S", "desc", "approved", true,
      some 1⟩] }

/-- Result state of the concrete C6 run. -/
def c6res : DB :=
  match remove_winner "s1" adminCaller c6db with
  | .ok d => d
  | .error _ => c6db

/-- Witness for C6 at the concrete winning submission. -/
theorem remove_winner_frame_witness :
    (c6db.submissions.map (fun s => s.id)).Nodup ∧
    remove_winner "s1" adminCaller c6db = .ok c6res ∧
    RemoveWinnerSpec "s1" adminCaller c6db c6res :=
  ⟨by decide, rfl, remove_winner_frame "s1" adminCaller c6db c6res (by decide) rfl⟩

/-! ## C5 — one proposal per (project, designer) -/

/-- Number of proposals for a given (project, designer) pair. -/
def proposalPairCount (l : List ProposalDoc) (pid did : String) : Nat :=
  l.countP (fun q => q.project_id == pid && q.designer_id == did)

/-- C5: when a proposal by the caller already exists on the project (and the
request would otherwise be admissible: role allowed, caller not blocked,
project exists and is open), `create_proposal` fails with the duplicate error
400 Already submitted — the conflict case of the error taxonomy — leaving the
store unwritten; and a successful creation preserves the invariant that every
(project, designer) pair has at most one proposal. -/
theorem create_proposal_pair_unique
    (prid nid1 nid2 : String) (caller : Caller)
    (project_id cover_letter : String) (db : DB) :
    ((∃ q, q ∈ db.proposals ∧ q.project_id = project_id ∧
        q.designer_id = caller.user_id) →
      require_role ["designer", "superadmin"] caller = .ok () →
      check_blocked caller.user_id db = .ok () →
      (∃ project, db.projects.find? (fun p => p.id == project_id) = some project ∧
        project.status = "open") →
      create_proposal prid nid1 nid2 caller project_id cover_letter db =
        .error ⟨400, "Already submitted"⟩) ∧
    (∀ db2 rid,
      create_proposal prid nid1 nid2 caller project_id cover_letter db = .ok (db2, rid) →
      (∀ pid did, proposalPairCount db.proposals pid did ≤ 1) →
      ∀ pid did, proposalPairCount db2.proposals pid did ≤ 1) := by
  constructor
  · rintro ⟨q, hq, hqp, hqd⟩ hrole hblock ⟨project, hproj, hopen⟩
    have hdup : (db.proposals.find? (fun q =>
        q.project_id == project_id && q.designer_id == caller.user_id)).isSome := by
      rw [List.find?_isSome]
      exact ⟨q, hq, by simp [hqp, hqd]⟩
    unfold create_proposal
    rw [hrole, hblock, hproj]
    simp [hopen, hdup]
  · intro db2 rid hok hinv pid did
    unfold create_proposal at hok
    split at hok
    · exact absurd hok (by simp)
    · split at hok
      · exact absurd hok (by simp)
      · split at hok
        · exact absurd hok (by simp)
        · split at hok
          · exact absurd hok (by simp)
          · split at hok
            · exact absurd hok (by simp)
            · rename_i project hproj hopen hdup
              simp only [Except.ok.injEq, Prod.mk.injEq] at hok
              obtain ⟨hdb, -⟩ := hok
              have hnone : db.proposals.find? (fun q =>
                  q.project_id == project_id && q.designer_id == caller.user_id)
                    = none := by
                cases hf : db.proposals.find? (fun q =>
                    q.project_id == project_id && q.designer_id == caller.user_id) with
                | none => rfl
                | some v => exact absurd (by simp [hf]) hdup
              have hzero : proposalPairCount db.proposals project_id caller.user_id = 0 := by
                unfold proposalPairCount
                rw [List.countP_eq_zero]
                intro a ha hp
                exact (List.find?_eq_none.1 hnone a ha) hp
              have hprops : db2.proposals = db.proposals ++
                  [⟨prid, project_id, caller.user_id,
                    (match db.users.find? (fun u => u.id == caller.user_id) with
                     | some u => u.name
                     | none => "Unknown"),
                    cover_letter, "pending"⟩] := by
                rw [← hdb]
                simp only [create_notification_proposals]
              rw [hprops]
              unfold proposalPairCount
              rw [List.countP_append]
              by_cases hpair : pid = project_id ∧ did = caller.user_id
              · obtain ⟨h1, h2⟩ := hpair
                subst h1
                subst h2
                have := hzero
                unfold proposalPairCount at this
                simp [this, List.countP_cons]
              · have hnew : (List.countP (fun q =>
                    q.project_id == pid && q.designer_id == did)
                    [(⟨prid, project_id, caller.user_id,
                      (match db.users.find? (fun u => u.id == caller.user_id) with
                       | some u => u.name
                       | none => "Unknown"),
                      cover_letter, "pending"⟩ : ProposalDoc)]) = 0 := by
                  rw [List.countP_eq_zero]
                  intro a ha
                  simp only [List.mem_singleton] at ha
                  subst ha
                  simp only [Bool.and_eq_true, beq_iff_eq, not_and]
                  intro h1 h2
                  exact hpair ⟨h1.symm, h2.symm⟩
                rw [hnew]
                have := hinv pid did
                unfold proposalPairCount at this
                omega

/-- Concrete base states for the C5 witness: an open project owned by `u1`
with an existing proposal by designer `d1`, who tries again. -/
def c5db : DB :=
  { emptyDB with
    users := [⟨"d1", "Dee", "d1@x", "h", "designer", none, false, false⟩],
    projects := [⟨"p1", "Site", "desc", "u1", "Ann", "cat", "open", none, false⟩],
    proposals := [⟨"q1", "p1", "d1", "Dee", "hi", "pending"⟩] }

/-- The designer issuing the duplicate C5 attempt. -/
def designerCaller : Caller := ⟨"d1", "d1@x", "designer"⟩

/-- Witness for C5: the second create attempt by the same designer on the
same project returns the duplicate error. -/
theorem create_proposal_pair_unique_witness :
    (∃ q, q ∈ c5db.proposals ∧ q.project_id = "p1" ∧ q.designer_id = "d1") ∧
    create_proposal "q2" "n1" "n2" designerCaller "p1" "again" c5db =
      .error ⟨400, "Already submitted"⟩ :=
  ⟨⟨⟨"q1", "p1", "d1", "Dee", "hi", "pending"⟩, by decide, rfl, rfl⟩,
    (create_proposal_pair_unique "q2" "n1" "n2" designerCaller "p1" "again" c5db).1
      ⟨⟨"q1", "p1", "d1", "Dee", "hi", "pending"⟩, by decide, rfl, rfl⟩
      rfl rfl ⟨⟨"p1", "Site", "desc", "u1", "Ann", "cat", "open", none, false⟩, rfl, rfl⟩⟩

/-! ## C1 and C4 — proposal approval -/

/-- Success criterion of `approve_proposal`: the handler succeeds exactly
when the proposal and its parent project exist and the caller owns the
project or is superadmin. Shared inversion lemma; note that the criterion
never mentions `proposal.status` or the users collection. -/
theorem approve_proposal_ok_iff (nid1 nid2 proposal_id : String)
    (caller : Caller) (db : DB) :
    (∃ db2, approve_proposal nid1 nid2 proposal_id caller db = .ok db2) ↔
      ∃ proposal, db.proposals.find? (fun p => p.id == proposal_id) = some proposal ∧
        ∃ project, db.projects.find? (fun j => j.id == proposal.project_id) = some project ∧
          (project.client_id = caller.user_id ∨ caller.role = "superadmin") := by
  constructor
  · rintro ⟨db2, h⟩
    unfold approve_proposal at h
    split at h
    · exact absurd h (by simp)
    · rename_i proposal hq
      split at h
      · exact absurd h (by simp)
      · rename_i project hj
        split at h
        · exact absurd h (by simp)
        · rename_i hc
          refine ⟨proposal, hq, project, hj, ?_⟩
          by_cases h1 : project.client_id = caller.user_id
          · exact Or.inl h1
          · by_cases h2 : caller.role = "superadmin"
            · exact Or.inr h2
            · exact absurd (by simp [bne_iff_ne, h1, h2]) hc
  · rintro ⟨proposal, hq, project, hj, hor⟩
    have hc : (project.client_id != caller.user_id
        && caller.role != "superadmin") = false := by
      rcases hor with h | h
      · simp [h]
      · simp [h]
    unfold approve_proposal
    simp only [hq]
    simp only [hj]
    simp only [hc, Bool.false_eq_true, if_false]
    exact ⟨_, rfl⟩

/-- The fields of the store changed by a successful proposal approval, stated
over the result state `db2`: the target proposal is approved, every other
proposal of the same project is rejected, the project is `in_progress` and
records the approved proposal id, and no proposal or project ids change. -/
def ApproveCascadeSpec (proposal_id : String) (project : ProjectDoc)
    (db db2 : DB) : Prop :=
  (∀ q ∈ db2.proposals, q.id = proposal_id → q.status = "approved") ∧
  (∀ q ∈ db2.proposals, q.project_id = project.id → q.id ≠ proposal_id →
    q.status = "rejected") ∧
  (∀ p ∈ db2.projects, p.id = project.id →
    p.status = "in_progress" ∧ p.approved_proposal_id = some proposal_id) ∧
  db2.proposals.map (fun q => q.id) = db.proposals.map (fun q => q.id) ∧
  db2.projects.map (fun p => p.id) = db.projects.map (fun p => p.id)

/-- The cascade property holds of any state whose proposals and projects are
exactly the three writes `approve_proposal` performs. -/
theorem approve_cascade_core (proposal_id : String) (project : ProjectDoc)
    (db db2 : DB)
    (hndq : (db.proposals.map (fun q => q.id)).Nodup)
    (hndp : (db.projects.map (fun p => p.id)).Nodup)
    (hprops : db2.proposals =
      updateMany (fun p => p.project_id == project.id && p.id != proposal_id)
        (fun p => { p with status := "rejected" })
        (updateOne (fun p => p.id == proposal_id)
          (fun p => { p with status := "approved" }) db.proposals))
    (hprojs : db2.projects =
      updateOne (fun p => p.id == project.id)
        (fun p => { p with status := "in_progress", approved_proposal_id := some proposal_id })
        db.projects) :
    ApproveCascadeSpec proposal_id project db db2 := by
  refine ⟨?_, ?_, ?_, ?_, ?_⟩
  · intro q hq hid
    rw [hprops] at hq
    simp only [updateMany, List.mem_map] at hq
    obtain ⟨y, hy, hqy⟩ := hq
    subst hqy
    by_cases hB : (y.project_id == project.id && y.id != proposal_id) = true
    · simp only [hB, if_true] at hid ⊢
      simp [hid] at hB
    · simp only [hB, Bool.false_eq_true, if_false] at hid ⊢
      obtain ⟨z, hz, hzid, hyz⟩ := updateOne_key_spec (fun q => q.id) proposal_id
        (fun p => { p with status := "approved" }) db.proposals hndq y hy hid
      rw [hyz]
  · intro q hq hpid hid
    rw [hprops] at hq
    simp only [updateMany, List.mem_map] at hq
    obtain ⟨y, hy, hqy⟩ := hq
    subst hqy
    by_cases hB : (y.project_id == project.id && y.id != proposal_id) = true
    · simp only [hB, if_true]
    · simp only [hB, Bool.false_eq_true, if_false] at hpid hid ⊢
      exact absurd (by simp [hpid, hid]) hB
  · intro p hp hid
    rw [hprojs] at hp
    obtain ⟨z, hz, hzid, hpz⟩ := updateOne_key_spec (fun p => p.id) project.id
      (fun p => { p with status := "in_progress", approved_proposal_id := some proposal_id })
      db.projects hndp p hp hid
    rw [hpz]
    exact ⟨rfl, rfl⟩
  · rw [hprops]
    have h1 : (updateOne (fun p => p.id == proposal_id)
        (fun p => { p with status := "approved" }) db.proposals).map (fun q => q.id)
          = db.proposals.map (fun q => q.id) := by
      apply updateOne_map_key
      intro q
      rfl
    have h2 := updateMany_map_key (fun q : ProposalDoc => q.id)
      (fun p => p.project_id == project.id && p.id != proposal_id)
      (fun p => { p with status := "rejected" }) (fun q => rfl)
      (updateOne (fun p => p.id == proposal_id)
        (fun p => { p with status := "approved" }) db.proposals)
    rw [h2, h1]
  · rw [hprojs]
    apply updateOne_map_key
    intro p
    rfl

/-- C1: when `approve_proposal` succeeds, it approves the target, rejects
every sibling proposal of the same project, and moves the project to
`in_progress` with `approved_proposal_id` set — all inside the one handler
invocation. -/
theorem approve_proposal_cascade (nid1 nid2 proposal_id : String)
    (caller : Caller) (db db2 : DB)
    (hndq : (db.proposals.map (fun q => q.id)).Nodup)
    (hndp : (db.projects.map (fun p => p.id)).Nodup)
    (proposal : ProposalDoc)
    (hfq : db.proposals.find? (fun p => p.id == proposal_id) = some proposal)
    (project : ProjectDoc)
    (hfp : db.projects.find? (fun j => j.id == proposal.project_id) = some project)
    (hok : approve_proposal nid1 nid2 proposal_id caller db = .ok db2) :
    ApproveCascadeSpec proposal_id project db db2 := by
  unfold approve_proposal at hok
  simp only [hfq, hfp] at hok
  split at hok
  · exact absurd hok (by simp)
  · simp only [Except.ok.injEq] at hok
    refine approve_cascade_core proposal_id project db db2 hndq hndp ?_ ?_
    · rw [← hok]
      split
      · simp only [create_audit_log_proposals, create_notification_proposals]
      · simp only [create_notification_proposals]
    · rw [← hok]
      split
      · simp only [create_audit_log_projects, create_notification_projects]
      · simp only [create_notification_projects]

/-- Concrete base state for the C1 witness: open project `p1` of client `u1`
with two pending proposals `q1` (designer d1) and `q2` (designer d2). -/
def c1db : DB :=
  { emptyDB with
    users := [⟨"u1", "Ann", "u1@x", "h", "client", none, false, false⟩],
    projects := [⟨"p1", "Site", "desc", "u1", "Ann", "cat", "open", none, false⟩],
    proposals := [⟨"q1", "p1", "d1", "Dee", "hi", "pending"⟩,
      ⟨"q2", "p1", "d2", "Em", "yo", "pending"⟩] }

/-- Result state of the concrete C1 approval run. -/
def c1res : DB :=
  match approve_proposal "n1" "n2" "q1" clientCaller c1db with
  | .ok d => d
  | .error _ => c1db

/-- Witness for C1: owner `u1` approves `q1`; `q2` is rejected and `p1` moves
to `in_progress`. -/
theorem approve_proposal_cascade_witness :
    (c1db.proposals.map (fun q => q.id)).Nodup ∧
    (c1db.projects.map (fun p => p.id)).Nodup ∧
    approve_proposal "n1" "n2" "q1" clientCaller c1db = .ok c1res ∧
    ApproveCascadeSpec "q1" ⟨"p1", "Site", "desc", "u1", "Ann", "cat", "open",
      none, false⟩ c1db c1res :=
  ⟨by decide, by decide, rfl,
    approve_proposal_cascade "n1" "n2" "q1" clientCaller c1db c1res
      (by decide) (by decide) ⟨"q1", "p1", "d1", "Dee", "hi", "pending"⟩ rfl
      ⟨"p1", "Site", "desc", "u1", "Ann", "cat", "open", none, false⟩ rfl rfl⟩

/-- Concrete base state for C4: project `p1` of client `u1` with a proposal
`q1` whose status is already `rejected`. -/
def c4db : DB :=
  { emptyDB with
    users := [⟨"u1", "Ann", "u1@x", "h", "client", none, false, false⟩],
    projects := [⟨"p1", "Site", "desc", "u1", "Ann", "cat", "open", none, false⟩],
    proposals := [⟨"q1", "p1", "d1", "Dee", "hi", "rejected"⟩] }

/-- Result state of the concrete C4 approval run. -/
def c4res : DB :=
  match approve_proposal "n1" "n2" "q1" clientCaller c4db with
  | .ok d => d
  | .error _ => c4db

/-- C4 counterexample: the proposal `q1` has status `rejected`, not
`pending`, yet `approve_proposal` succeeds and applies the cascade — the
handler never reads the current status. -/
theorem approve_succeeds_on_rejected_proposal :
    c4db.proposals.find? (fun p => p.id == "q1") =
      some ⟨"q1", "p1", "d1", "Dee", "hi", "rejected"⟩ ∧
    ("rejected" : String) ≠ "pending" ∧
    approve_proposal "n1" "n2" "q1" clientCaller c4db = .ok c4res :=
  ⟨rfl, by decide, rfl⟩

/-- C4 (amended): `approve_proposal` enforces no status precondition; it
succeeds exactly when the proposal exists, its parent project exists, and the
caller owns the project or is superadmin — whatever the current
`proposal.status`. -/
theorem approve_proposal_no_status_precondition (nid1 nid2 proposal_id : String)
    (caller : Caller) (db : DB) :
    (∃ db2, approve_proposal nid1 nid2 proposal_id caller db = .ok db2) ↔
      ∃ proposal, db.proposals.find? (fun p => p.id == proposal_id) = some proposal ∧
        ∃ project, db.projects.find? (fun j => j.id == proposal.project_id) = some project ∧
          (project.client_id = caller.user_id ∨ caller.role = "superadmin") :=
  approve_proposal_ok_iff nid1 nid2 proposal_id caller db

/-- Witness for C4 (amended): the criterion holds at the concrete rejected
proposal, so approval succeeds there. -/
theorem approve_proposal_no_status_precondition_witness :
    ∃ db2, approve_proposal "n1" "n2" "q1" clientCaller c4db = .ok db2 :=
  (approve_proposal_no_status_precondition "n1" "n2" "q1" clientCaller c4db).mpr
    ⟨⟨"q1", "p1", "d1", "Dee", "hi", "rejected"⟩, rfl,
      ⟨"p1", "Site", "desc", "u1", "Ann", "cat", "open", none, false⟩, rfl,
      Or.inl rfl⟩

/-! ## C2 — winner position exclusivity -/

/-- Number of submissions of competition `c` currently holding winner
position `k`. -/
def winnerPosCount (l : List SubmissionDoc) (c : String) (k : Nat) : Nat :=
  l.countP (fun s => s.competition_id == c && s.winner_position == some k)

/-- What a successful `set_winner` call guarantees: at most one holder of the
assigned position in the competition (outright), no other (competition,
position) count ever grows (so per-position uniqueness is preserved), the
target carries the winner flag, the assigned position and status approved,
the target is the only holder of the assigned position in its competition,
every other submission that previously held the assigned position in this
competition has both `is_winner` and `winner_position` cleared while the
remaining submissions are untouched, submission and competition ids are
untouched, and the competition now credits the designer in `winner_ids`
without duplicates and without unrelated additions. -/
def SetWinnerSpec (submission_id : String) (position : Nat)
    (submission : SubmissionDoc) (comp : CompetitionDoc) (db db2 : DB) : Prop :=
  winnerPosCount db2.submissions comp.id position ≤ 1 ∧
  (∀ c k, ¬(c = comp.id ∧ k = position) →
    winnerPosCount db2.submissions c k ≤ winnerPosCount db.submissions c k) ∧
  (∀ s ∈ db2.submissions, s.id = submission_id →
    s.is_winner = true ∧ s.winner_position = some position ∧ s.status = "approved") ∧
  (∀ s ∈ db2.submissions, s.competition_id = comp.id →
    s.winner_position = some position → s.id = submission_id) ∧
  (∀ s ∈ db2.submissions, s.id ≠ submission_id →
    ∃ t, t ∈ db.submissions ∧ t.id = s.id ∧
      ((t.competition_id = comp.id ∧ t.winner_position = some position ∧
        s = { t with is_winner := false, winner_position := none }) ∨
       (¬(t.competition_id = comp.id ∧ t.winner_position = some position) ∧
        s = t))) ∧
  db2.submissions.map (fun s => s.id) = db.submissions.map (fun s => s.id) ∧
  (∀ c ∈ db2.competitions, c.id = comp.id →
    submission.designer_id ∈ c.winner_ids ∧
    (comp.winner_ids.Nodup → c.winner_ids.Nodup) ∧
    (∀ x ∈ c.winner_ids, x ∈ comp.winner_ids ∨ x = submission.designer_id)) ∧
  db2.competitions.map (fun c => c.id) = db.competitions.map (fun c => c.id)

/-- C2: `set_winner` keeps winner positions exclusive per competition and
performs exactly the clear-then-set and `winner_ids` bookkeeping claimed. -/
theorem set_winner_exclusive (nid1 nid2 submission_id : String) (position : Nat)
    (caller : Caller) (db db2 : DB)
    (hnds : (db.submissions.map (fun s => s.id)).Nodup)
    (hndc : (db.competitions.map (fun c => c.id)).Nodup)
    (submission : SubmissionDoc)
    (hfs : db.submissions.find? (fun s => s.id == submission_id) = some submission)
    (comp : CompetitionDoc)
    (hfc : db.competitions.find? (fun c => c.id == submission.competition_id) = some comp)
    (hok : set_winner nid1 nid2 submission_id position caller db = .ok db2) :
    SetWinnerSpec submission_id position submission comp db db2 := by
  have hsubid : submission.id = submission_id := by
    have := List.find?_some hfs
    simpa using this
  have hsubmem : submission ∈ db.submissions := List.mem_of_find?_eq_some hfs
  have hcompid : comp.id = submission.competition_id := by
    have := List.find?_some hfc
    simpa using this
  have hcompmem : comp ∈ db.competitions := List.mem_of_find?_eq_some hfc
  unfold set_winner at hok
  split at hok
  · exact absurd hok (by simp)
  · simp only [hfs] at hok
    simp only [hfc] at hok
    split at hok
    · exact absurd hok (by simp)
    · simp only [Except.ok.injEq] at hok
      have hsubs : db2.submissions =
          updateOne (fun s => s.id == submission_id)
            (fun s => { s with is_winner := true, winner_position := some position, status := "approved" })
            (updateMany (fun s => s.competition_id == comp.id && s.winner_position == some position)
              (fun s => { s with is_winner := false, winner_position := none })
              db.submissions) := by
        rw [← hok]
        split
        · simp only [create_audit_log_submissions, create_notification_submissions]
        · simp only [create_notification_submissions]
      have hcomps : db2.competitions =
          updateOne (fun c => c.id == comp.id)
            (fun c => { c with winner_ids :=
              if comp.winner_ids.contains submission.designer_id = true then comp.winner_ids
              else comp.winner_ids ++ [submission.designer_id] })
            db.competitions := by
        rw [← hok]
        split
        · simp only [create_audit_log_competitions, create_notification_competitions]
        · simp only [create_notification_competitions]
      have hl1ids : (updateMany (fun s => s.competition_id == comp.id && s.winner_position == some position)
          (fun s => { s with is_winner := false, winner_position := none })
          db.submissions).map (fun s => s.id) = db.submissions.map (fun s => s.id) := by
        apply updateMany_map_key
        intro s
        rfl
      refine ⟨?_, ?_, ?_, ?_, ?_, ?_, ?_, ?_⟩
      · unfold winnerPosCount
        rw [hsubs]
        have h0 : (updateMany (fun s => s.competition_id == comp.id && s.winner_position == some position)
            (fun s => { s with is_winner := false, winner_position := none })
            db.submissions).countP
              (fun s => s.competition_id == comp.id && s.winner_position == some position) = 0 := by
          apply countP_updateMany_eq_zero
          · intro x
            simp
          · intro x h
            exact h
        calc (updateOne (fun s => s.id == submission_id)
              (fun s => { s with is_winner := true, winner_position := some position, status := "approved" })
              (updateMany (fun s => s.competition_id == comp.id && s.winner_position == some position)
                (fun s => { s with is_winner := false, winner_position := none })
                db.submissions)).countP
                  (fun s => s.competition_id == comp.id && s.winner_position == some position)
            ≤ _ + 1 := countP_updateOne_le _ _ _ _
          _ = 1 := by rw [h0]
      · intro c k hck
        unfold winnerPosCount
        rw [hsubs]
        have step1 : (updateMany (fun s => s.competition_id == comp.id && s.winner_position == some position)
            (fun s => { s with is_winner := false, winner_position := none })
            db.submissions).countP
              (fun s => s.competition_id == c && s.winner_position == some k)
            ≤ db.submissions.countP (fun s => s.competition_id == c && s.winner_position == some k) := by
          apply countP_updateMany_le_of_false
          intro x
          simp
        have step2 : (updateOne (fun s => s.id == submission_id)
            (fun s => { s with is_winner := true, winner_position := some position, status := "approved" })
            (updateMany (fun s => s.competition_id == comp.id && s.winner_position == some position)
              (fun s => { s with is_winner := false, winner_position := none })
              db.submissions)).countP
              (fun s => s.competition_id == c && s.winner_position == some k)
            ≤ (updateMany (fun s => s.competition_id == comp.id && s.winner_position == some position)
              (fun s => { s with is_winner := false, winner_position := none })
              db.submissions).countP
              (fun s => s.competition_id == c && s.winner_position == some k) := by
          apply countP_updateOne_le_of_mem
          intro x hx hqx
          by_cases hk : k = position
          · subst hk
            simp only [updateMany, List.mem_map] at hx
            obtain ⟨y, hy, hxy⟩ := hx
            have hxid : x.id = submission_id := by simpa using hqx
            have hyid : y.id = x.id := by
              rw [← hxy]
              by_cases hP : (y.competition_id == comp.id && y.winner_position == some k) = true
              · simp [hP]
              · simp [hP]
            have hycomp : y.competition_id = x.competition_id := by
              rw [← hxy]
              by_cases hP : (y.competition_id == comp.id && y.winner_position == some k) = true
              · simp [hP]
              · simp [hP]
            have hy_eq : y = submission := by
              apply eq_of_key_eq_of_nodup (fun s => s.id) hnds hy hsubmem
              rw [hyid, hxid, hsubid]
            have hxc : x.competition_id = comp.id := by
              rw [← hycomp, hy_eq, hcompid]
            have hc_ne : c ≠ comp.id := by
              intro hceq
              exact hck ⟨hceq, rfl⟩
            have hne : comp.id ≠ c := fun h => hc_ne h.symm
            simp [hxc, hne]
          · have hpk : ¬position = k := fun h => hk h.symm
            simp [hpk]
        exact le_trans step2 step1
      · intro s hs hid
        rw [hsubs] at hs
        have hl1nd : ((updateMany (fun s => s.competition_id == comp.id && s.winner_position == some position)
            (fun s => { s with is_winner := false, winner_position := none })
            db.submissions).map (fun s => s.id)).Nodup := by
          rw [hl1ids]
          exact hnds
        obtain ⟨z, hz, hzid, hsz⟩ := updateOne_key_spec (fun s => s.id) submission_id
          (fun s => { s with is_winner := true, winner_position := some position, status := "approved" })
          _ hl1nd s hs hid
        rw [hsz]
        exact ⟨rfl, rfl, rfl⟩
      · intro s hs hcomp hpos
        rw [hsubs] at hs
        rcases mem_updateOne hs with hmem | ⟨y, hy, hA, hsy⟩
        · simp only [updateMany, List.mem_map] at hmem
          obtain ⟨y, hy, hxy⟩ := hmem
          by_cases hP : (y.competition_id == comp.id && y.winner_position == some position) = true
          · rw [← hxy] at hpos
            simp [hP] at hpos
          · rw [← hxy] at hcomp hpos
            simp only [hP, Bool.false_eq_true, if_false] at hcomp hpos
            exact absurd (by simp [hcomp, hpos]) hP
        · rw [hsy]
          simpa using hA
      · intro s hs hid
        rw [hsubs] at hs
        rcases mem_updateOne hs with hmem | ⟨y, hy, hA, hsy⟩
        · simp only [updateMany, List.mem_map] at hmem
          obtain ⟨t, ht, hst⟩ := hmem
          by_cases hP : (t.competition_id == comp.id && t.winner_position == some position) = true
          · have hP2 : t.competition_id = comp.id ∧ t.winner_position = some position := by
              simpa using hP
            refine ⟨t, ht, ?_, Or.inl ⟨hP2.1, hP2.2, ?_⟩⟩
            · rw [← hst]
              simp [hP]
            · rw [← hst]
              simp [hP]
          · refine ⟨t, ht, ?_, Or.inr ⟨?_, ?_⟩⟩
            · rw [← hst]
              simp [hP]
            · intro hconj
              exact hP (by simp [hconj.1, hconj.2])
            · rw [← hst]
              simp [hP]
        · exfalso
          apply hid
          rw [hsy]
          simpa using hA
      · rw [hsubs]
        have h1 : (updateOne (fun s => s.id == submission_id)
            (fun s => { s with is_winner := true, winner_position := some position, status := "approved" })
            (updateMany (fun s => s.competition_id == comp.id && s.winner_position == some position)
              (fun s => { s with is_winner := false, winner_position := none })
              db.submissions)).map (fun s => s.id)
            = (updateMany (fun s => s.competition_id == comp.id && s.winner_position == some position)
              (fun s => { s with is_winner := false, winner_position := none })
              db.submissions).map (fun s => s.id) := by
          apply updateOne_map_key
          intro s
          rfl
        rw [h1, hl1ids]
      · intro c hc hcid
        rw [hcomps] at hc
        obtain ⟨z, hz, hzid, hcz⟩ := updateOne_key_spec (fun c => c.id) comp.id
          (fun c => { c with winner_ids :=
            if comp.winner_ids.contains submission.designer_id = true then comp.winner_ids
            else comp.winner_ids ++ [submission.designer_id] })
          db.competitions hndc c hc hcid
        have hz_eq : z = comp := eq_of_key_eq_of_nodup (fun c => c.id) hndc hz hcompmem hzid
        subst hz_eq
        rw [hcz]
        by_cases hcont : z.winner_ids.contains submission.designer_id = true
        · refine ⟨?_, ?_, ?_⟩
          · simp only [hcont, if_true]
            exact List.mem_of_elem_eq_true hcont
          · intro hnd
            have hmem : submission.designer_id ∈ z.winner_ids :=
              List.mem_of_elem_eq_true hcont
            simp [hmem, hnd]
          · intro x hx
            simp only [hcont, if_true] at hx
            exact Or.inl hx
        · refine ⟨?_, ?_, ?_⟩
          · simp only [hcont, Bool.false_eq_true, if_false]
            exact List.mem_append_right _ (List.mem_singleton_self _)
          · intro hnd
            simp only [hcont, Bool.false_eq_true, if_false]
            rw [List.nodup_append]
            refine ⟨hnd, List.nodup_singleton _, ?_⟩
            intro a ha hmem
            simp only [List.mem_singleton] at hmem
            subst hmem
            exact absurd (List.elem_eq_true_of_mem ha) (by simpa using hcont)
          · intro x hx
            simp only [hcont, Bool.false_eq_true, if_false, List.mem_append,
              List.mem_singleton] at hx
            rcases hx with hx | hx
            · exact Or.inl hx
            · exact Or.inr hx
      · rw [hcomps]
        apply updateOne_map_key
        intro c
        rfl

/-- Concrete base state for the C2 witness: competition `c1` of client `u1`;
submission `s1` (designer d1) currently holds position 1; submission `s2`
(designer d2) holds nothing. -/
def c2db : DB :=
  { emptyDB with
    users := [⟨"u1", "Ann", "u1@x", "h", "client", none, false, false⟩],
    competitions := [⟨"c1", "T", "D", "B", "u1", "Ann", "cat", 0, 10, "active",
      [], false⟩],
    submissions := [⟨"s1", "c1", "d1", "Dee", "A", "x", "approved", true, some 1⟩,
      ⟨"s2", "c1", "d2", "Em", "B", "y", "pending", false, none⟩] }

/-- Result state of the concrete C2 run: owner `u1` gives position 1 to `s2`. -/
def c2res : DB :=
  match set_winner "n1" "n2" "s2" 1 clientCaller c2db with
  | .ok d => d
  | .error _ => c2db

/-- Witness for C2: reassigning position 1 from `s1` to `s2`. -/
theorem set_winner_exclusive_witness :
    (c2db.submissions.map (fun s => s.id)).Nodup ∧
    (c2db.competitions.map (fun c => c.id)).Nodup ∧
    c2db.submissions.find? (fun s => s.id == "s2") =
      some ⟨"s2", "c1", "d2", "Em", "B", "y", "pending", false, none⟩ ∧
    set_winner "n1" "n2" "s2" 1 clientCaller c2db = .ok c2res ∧
    SetWinnerSpec "s2" 1 ⟨"s2", "c1", "d2", "Em", "B", "y", "pending", false, none⟩
      ⟨"c1", "T", "D", "B", "u1", "Ann", "cat", 0, 10, "active", [], false⟩
      c2db c2res :=
  ⟨by decide, by decide, rfl, rfl,
    set_winner_exclusive "n1" "n2" "s2" 1 clientCaller c2db c2res
      (by decide) (by decide)
      ⟨"s2", "c1", "d2", "Em", "B", "y", "pending", false, none⟩ rfl
      ⟨"c1", "T", "D", "B", "u1", "Ann", "cat", 0, 10, "active", [], false⟩ rfl rfl⟩

/-! ## C3 — blocked accounts -/

/-- `GET /projects/my` (server.py lines 357-368): an authenticated read that
re-checks the blocked flag before listing the caller's own projects. The
creation-date sort and per-project proposal counts are read-only decoration
and are omitted. -/
def get_my_projects (caller : Caller) (db : DB) :
    Except ApiError (List ProjectDoc) :=
  match check_blocked caller.user_id db with
  | .error e => .error e
  | .ok _ => .ok (db.projects.filter (fun p => p.client_id == caller.user_id))

/-- `GET /projects/{id}` (server.py lines 382-393): a public read with no
caller argument at all. The proposal-count decoration is omitted. -/
def get_project (project_id : String) (db : DB) : Except ApiError ProjectDoc :=
  match db.projects.find? (fun p => p.id == project_id) with
  | none => .error ⟨404, "Project not found"⟩
  | some p => .ok p

/-- Concrete state for the C3 counterexample: client `u1` is blocked, owns
open project `p1` which has a pending proposal `q1`. -/
def c3db : DB :=
  { emptyDB with
    users := [⟨"u1", "Ann", "u1@x", hash_password "pw", "client", none, true, false⟩],
    projects := [⟨"p1", "Site", "desc", "u1", "Ann", "cat", "open", none, false⟩],
    proposals := [⟨"q1", "p1", "d1", "Dee", "hi", "pending"⟩] }

/-- Result state of the blocked owner approving `q1` in the counterexample. -/
def c3res : DB :=
  match approve_proposal "n1" "n2" "q1" clientCaller c3db with
  | .ok d => d
  | .error _ => c3db

/-- C3 counterexample: `u1` is blocked, yet (a) login denies the session with
the blocked error — contradicting the claim that a blocked user may still
authenticate — and (b) the mutating approve-proposal operation by the blocked
owner succeeds — contradicting the claim that every mutating operation is
denied — and (c) the authenticated my-projects read is denied — contradicting
the claim that read operations remain allowed. -/
theorem blocked_user_claim_fails :
    (c3db.users.find? (fun u => u.email == "u1@x")).map (fun u => u.is_blocked)
      = some true ∧
    login (some "u1@x") (some "pw") c3db = .error ⟨403, "Account is blocked"⟩ ∧
    approve_proposal "n1" "n2" "q1" clientCaller c3db = .ok c3res ∧
    get_my_projects clientCaller c3db = .error ⟨403, "Your account is blocked"⟩ :=
  ⟨rfl, rfl, rfl, rfl⟩

/-- C3 (amended): a blocked user cannot authenticate a session at all (login
returns the blocked 403). The operations that re-read the blocked flag via
`check_blocked` — the four create endpoints, the project and competition
field updates, and the authenticated my-resources reads — deny a blocked
caller with the blocked-specific error. The other mutating operations make
no blocked check: approve and reject of a proposal, set-winner, remove-winner
and delete-proposal all succeed for a blocked caller whenever their
existence and ownership/role conditions hold. The public single-project read
takes no caller identity at all. -/
theorem blocked_user_enforcement (db : DB) :
    (∀ email pw u, email ≠ "" → pw ≠ "" →
      db.users.find? (fun x => x.email == email) = some u →
      verify_password pw u.password_hash = true →
      u.is_blocked = true →
      login (some email) (some pw) db = .error ⟨403, "Account is blocked"⟩) ∧
    (∀ caller u, db.users.find? (fun x => x.id == caller.user_id) = some u →
      u.is_blocked = true →
      (require_role ["client", "superadmin"] caller = .ok () →
        (∀ pid nid title description category,
          create_project pid nid caller title description category db =
            .error ⟨403, "Your account is blocked"⟩) ∧
        (∀ cid nid title description brief category sd ed now,
          create_competition cid nid caller title description brief category
            sd ed now db = .error ⟨403, "Your account is blocked"⟩)) ∧
      (require_role ["designer", "superadmin"] caller = .ok () →
        (∀ prid nid1 nid2 project_id cover_letter,
          create_proposal prid nid1 nid2 caller project_id cover_letter db =
            .error ⟨403, "Your account is blocked"⟩) ∧
        (∀ sid nid1 nid2 competition_id title description,
          create_submission sid nid1 nid2 caller competition_id title
            description db = .error ⟨403, "Your account is blocked"⟩)) ∧
      (∀ nid project_id upd,
        update_project nid project_id caller upd db =
          .error ⟨403, "Your account is blocked"⟩) ∧
      (∀ nid competition_id upd,
        update_competition nid competition_id caller upd db =
          .error ⟨403, "Your account is blocked"⟩) ∧
      get_my_projects caller db = .error ⟨403, "Your account is blocked"⟩ ∧
      (∀ nid1 nid2 proposal_id proposal project,
        db.proposals.find? (fun p => p.id == proposal_id) = some proposal →
        db.projects.find? (fun j => j.id == proposal.project_id) = some project →
        (project.client_id = caller.user_id ∨ caller.role = "superadmin") →
        (∃ db2, approve_proposal nid1 nid2 proposal_id caller db = .ok db2) ∧
        (∃ db2, reject_proposal nid1 nid2 proposal_id caller db = .ok db2)) ∧
      (∀ nid1 nid2 submission_id position submission comp,
        1 ≤ position → position ≤ 3 →
        db.submissions.find? (fun s => s.id == submission_id) = some submission →
        db.competitions.find? (fun c => c.id == submission.competition_id) = some comp →
        (comp.client_id = caller.user_id ∨ caller.role = "superadmin") →
        ∃ db2, set_winner nid1 nid2 submission_id position caller db = .ok db2) ∧
      (caller.role = "superadmin" →
        ∀ submission_id submission,
          db.submissions.find? (fun s => s.id == submission_id) = some submission →
          ∃ db2, remove_winner submission_id caller db = .ok db2) ∧
      (caller.role = "superadmin" →
        ∀ proposal_id proposal,
          db.proposals.find? (fun p => p.id == proposal_id) = some proposal →
          ∃ db2, delete_proposal proposal_id caller db = .ok db2)) ∧
    (∀ project_id p, db.projects.find? (fun j => j.id == project_id) = some p →
      get_project project_id db = .ok p) := by
  refine ⟨?_, ?_, ?_⟩
  · intro email pw u hemail hpw hfind hverify hblocked
    have hfind2 : db.users.find? (fun x => some x.email == some email) = some u := by
      rw [show (fun x : UserDoc => some x.email == some email)
        = (fun x : UserDoc => x.email == email) from funext (fun x => rfl)]
      exact hfind
    unfold login
    have ht1 : truthyStr (some email) = true := by simp [truthyStr, hemail]
    have ht2 : truthyStr (some pw) = true := by simp [truthyStr, hpw]
    simp only [ht1, ht2, Bool.not_true, Bool.or_self, Bool.false_eq_true, if_false]
    simp only [hfind2]
    simp only [hverify, Bool.not_true, Bool.false_eq_true, if_false, hblocked,
      if_true]
  · intro caller u hfind hblocked
    have hcb : check_blocked caller.user_id db =
        .error ⟨403, "Your account is blocked"⟩ := by
      unfold check_blocked
      simp only [hfind, hblocked, if_true]
    refine ⟨?_, ?_, ?_, ?_, ?_, ?_, ?_, ?_, ?_⟩
    · intro hrole
      constructor
      · intro pid nid title description category
        unfold create_project
        simp only [hrole]
        simp only [hcb]
      · intro cid nid title description brief category sd ed now
        unfold create_competition
        simp only [hrole]
        simp only [hcb]
    · intro hrole
      constructor
      · intro prid nid1 nid2 project_id cover_letter
        unfold create_proposal
        simp only [hrole]
        simp only [hcb]
      · intro sid nid1 nid2 competition_id title description
        unfold create_submission
        simp only [hrole]
        simp only [hcb]
    · intro nid project_id upd
      unfold update_project
      simp only [hcb]
    · intro nid competition_id upd
      unfold update_competition
      simp only [hcb]
    · unfold get_my_projects
      simp only [hcb]
    · intro nid1 nid2 proposal_id proposal project hq hj hor
      constructor
      · exact (approve_proposal_ok_iff nid1 nid2 proposal_id caller db).mpr
          ⟨proposal, hq, project, hj, hor⟩
      · have hc : (project.client_id != caller.user_id
            && caller.role != "superadmin") = false := by
          rcases hor with h | h
          · simp [h]
          · simp [h]
        unfold reject_proposal
        simp only [hq]
        simp only [hj]
        simp only [hc, Bool.false_eq_true, if_false]
        exact ⟨_, rfl⟩
    · intro nid1 nid2 submission_id position submission comp hlo hhi hfs hfc hor
      have hrange : (decide (position < 1) || decide (3 < position)) = false := by
        have h1 : ¬position < 1 := by omega
        have h2 : ¬3 < position := by omega
        simp [h1, h2]
      have hc : (comp.client_id != caller.user_id
          && caller.role != "superadmin") = false := by
        rcases hor with h | h
        · simp [h]
        · simp [h]
      unfold set_winner
      simp only [hrange, Bool.false_eq_true, if_false]
      simp only [hfs]
      simp only [hfc]
      simp only [hc, Bool.false_eq_true, if_false]
      exact ⟨_, rfl⟩
    · intro hadmin submission_id submission hfs
      have hrr : require_role ["superadmin"] caller = .ok () := by
        simp [require_role, hadmin]
      unfold remove_winner
      simp only [hrr]
      simp only [hfs]
      exact ⟨_, rfl⟩
    · intro hadmin proposal_id proposal hq
      have hrr : require_role ["superadmin"] caller = .ok () := by
        simp [require_role, hadmin]
      unfold delete_proposal
      simp only [hrr]
      simp only [hq]
      exact ⟨_, rfl⟩
  · intro project_id p hfind
    unfold get_project
    simp only [hfind]

/-- Witness for C3 (amended) at the concrete blocked client `u1`: login and
the blocked-checked operations deny, while approve and reject of the pending
proposal on the owned project still succeed. -/
theorem blocked_user_enforcement_witness :
    ("u1@x" : String) ≠ "" ∧ ("pw" : String) ≠ "" ∧
    c3db.users.find? (fun x => x.email == "u1@x") =
      some ⟨"u1", "Ann", "u1@x", hash_password "pw", "client", none, true, false⟩ ∧
    login (some "u1@x") (some "pw") c3db = .error ⟨403, "Account is blocked"⟩ ∧
    c3db.users.find? (fun x => x.id == clientCaller.user_id) =
      some ⟨"u1", "Ann", "u1@x", hash_password "pw", "client", none, true, false⟩ ∧
    create_project "p9" "n9" clientCaller "T" "D" "cat" c3db =
      .error ⟨403, "Your account is blocked"⟩ ∧
    update_project "n9" "p1" clientCaller ⟨none, none, none, none⟩ c3db =
      .error ⟨403, "Your account is blocked"⟩ ∧
    (∃ db2, approve_proposal "n1" "n2" "q1" clientCaller c3db = .ok db2) ∧
    (∃ db2, reject_proposal "n1" "n2" "q1" clientCaller c3db = .ok db2) := by
  have H := blocked_user_enforcement c3db
  have H2 := H.2.1 clientCaller
    ⟨"u1", "Ann", "u1@x", hash_password "pw", "client", none, true, false⟩ rfl rfl
  refine ⟨by decide, by decide, rfl, ?_, rfl, ?_, ?_, ?_, ?_⟩
  · exact H.1 "u1@x" "pw"
      ⟨"u1", "Ann", "u1@x", hash_password "pw", "client", none, true, false⟩
      (by decide) (by decide) rfl (by decide) rfl
  · exact (H2.1 rfl).1 "p9" "n9" "T" "D" "cat"
  · exact H2.2.2.1 "n9" "p1" ⟨none, none, none, none⟩
  · exact (H2.2.2.2.2.2.1 "n1" "n2" "q1"
      ⟨"q1", "p1", "d1", "Dee", "hi", "pending"⟩
      ⟨"p1", "Site", "desc", "u1", "Ann", "cat", "open", none, false⟩
      rfl rfl (Or.inl rfl)).1
  · exact (H2.2.2.2.2.2.1 "n1" "n2" "q1"
      ⟨"q1", "p1", "d1", "Dee", "hi", "pending"⟩
      ⟨"p1", "Site", "desc", "u1", "Ann", "cat", "open", none, false⟩
      rfl rfl (Or.inl rfl)).2

end Dezx
